import Mathlib

/-!
Verification of the hp-tests quantity-tagging and derived-quantity engine.

The Python sources are shallowly embedded: numpy arrays become `List ℚ`,
per-sample (vectorized) numpy expressions become `List.zipWith`/`List.map`,
raising an exception becomes returning `none`, and the external CoolProp
property-lookup service is an explicit oracle record of pure functions.
-/

namespace HpTests

/-- Three-way pointwise zip, the shape of a vectorized numpy expression
over three arrays of equal length. -/
def zipWith3 (f : α → β → γ → δ) : List α → List β → List γ → List δ
  | a :: as, b :: bs, c :: cs => f a b c :: zipWith3 f as bs cs
  | _, _, _ => []

/-- A unit of measure, modelling a pint unit as an affine map into the base
unit of its dimension: a magnitude `m` in this unit denotes
`m * scale + offset` base units (`scale` is nonzero for a genuine unit;
the offset accommodates temperature scales). -/
structure XUnit where
  dim : String
  scale : ℚ
  offset : ℚ
deriving DecidableEq

/-- The xpint `_Quantity` (src/xpint.py lines 43-52 and
src/vaplac/vaplac/xpint.py lines 43-54): a magnitude array tagged with a
unit, a physical property `prop` and a display `label`. -/
structure Quantity where
  magnitude : List ℚ
  units : XUnit
  prop : Option String
  label : Option String
deriving DecidableEq

/-- Conversion of one magnitude between two units of the same dimension, as
performed by pint inside `super().to`: go through the base unit. -/
def convertMag (u v : XUnit) (m : ℚ) : ℚ := (m * u.scale + u.offset - v.offset) / v.scale

/-- `_Quantity.to` (src/xpint.py lines 54-62, src/vaplac/vaplac/xpint.py
lines 81-89): with no target unit, return a tagged copy; otherwise delegate
the magnitude/unit conversion to pint and re-attach `prop` and `label`
unchanged.  `none` models pint's DimensionalityError on a target unit of a
different dimension. -/
def Quantity.to (q : Quantity) : Option XUnit → Option Quantity
  | none => some ⟨q.magnitude, q.units, q.prop, q.label⟩
  | some u =>
      if u.dim = q.units.dim then
        some ⟨q.magnitude.map (convertMag q.units u), u, q.prop, q.label⟩
      else none

/-- Index keys accepted by `_Quantity.__getitem__`: a single position or a
`start:stop` slice. -/
inductive IndexKey where
  | idx (i : Nat)
  | slice (start stop : Nat)
deriving DecidableEq

/-- `_Quantity.__getitem__` (src/vaplac/vaplac/xpint.py lines 91-101): index
the magnitude and rebuild a quantity carrying the same name tags
(`**self._name` passes `prop` and `label` through).  An out-of-range
position raises IndexError, modelled by `none`. -/
def Quantity.getitem (q : Quantity) : IndexKey → Option Quantity
  | .idx i => (q.magnitude[i]?).map (fun x => ⟨[x], q.units, q.prop, q.label⟩)
  | .slice a b =>
      some ⟨(q.magnitude.drop a).take (b - a), q.units, q.prop, q.label⟩

/-! ### The derived heat/power computation (`DataTaker._heat`, `thermo_cal`) -/

/-- The derived powers computed by `DataTaker._heat`
(src/vaplac/base.py lines 419-423). -/
inductive PowerKind where
  | Qcond
  | Qev
  | Pcomp
  | QlossEv
deriving DecidableEq

def phaseGas : String := "gas"

def phaseLiq : String := "liq"

def phaseLiquid : String := "liquid"

def phaseTwophase : String := "twophase"

/-- Expected inlet phase by power (src/vaplac/base.py lines 419-423). -/
def expPhaseIn : PowerKind → String
  | .Qcond => phaseGas
  | .Qev => phaseLiq
  | .Pcomp => phaseGas
  | .QlossEv => phaseGas

/-- Expected outlet phase by power (src/vaplac/base.py lines 419-423). -/
def expPhaseOut : PowerKind → String
  | .Qcond => phaseLiq
  | .Qev => phaseGas
  | .Pcomp => phaseGas
  | .QlossEv => phaseGas

/-- Quality by expected phase (src/vaplac/base.py line 425,
`{'liq': 0, 'gas': 1, None: None}`); `_heat` only ever looks up the keys
`'liq'` (quality 0) and `'gas'` (quality 1). -/
def qualityOf (phase : String) : ℚ := if phase = phaseLiq then 0 else 1

/-- Quality by expected phase in `thermo_cal` (src/explore.py line 392,
`{'liquid': 0, 'gas': 1, None: None}`). -/
def qualityTC (phase : String) : ℚ := if phase = phaseLiquid then 0 else 1

/-- The external CoolProp property service (spec section 6), a synchronous
pure function per query kind: enthalpy from pressure-temperature
(`PropsSI('H','P',p,'T',T)`), phase label from pressure-temperature
(`PhaseSI`), and saturation enthalpy from pressure-quality
(`PropsSI('H','P',p,'Q',q)`). -/
structure PropOracle where
  hPT : ℚ → ℚ → ℚ
  phasePT : ℚ → ℚ → String
  hPQ : ℚ → ℚ → ℚ

/-- The phase-correction stage of `DataTaker._heat` (src/vaplac/base.py
lines 427-437).  The masked assignment
`h[phase != exp_phase] = PropsSI('H', 'P', p[phase != exp_phase], 'Q', q)`
runs only under the guard `if not exp_phase in phase`, i.e. only when no
sample at all carries the expected phase; otherwise the raw enthalpies are
kept untouched. -/
def heatPhaseCorrection (hPQ : ℚ → ℚ → ℚ) (expPhase : String) (p : List ℚ)
    (phase : List String) (h : List ℚ) : List ℚ :=
  if expPhase ∈ phase then h
  else
    zipWith3 (fun pi phi hi => if phi ≠ expPhase then hPQ pi (qualityOf expPhase) else hi)
      p phase h

/-- The phase-correction stage of `thermo_cal` (src/explore.py lines
394-400): the masked saturation-enthalpy assignment is unconditional, i.e.
genuinely per-sample.  This is also the behaviour the spec (section 4.3)
prescribes for `corrected_enthalpy`. -/
def thermoCalPhaseCorrection (hPQ : ℚ → ℚ → ℚ) (expPhase : String) (p : List ℚ)
    (phase : List String) (h : List ℚ) : List ℚ :=
  zipWith3 (fun pi phi hi => if phi ≠ expPhase then hPQ pi (qualityTC expPhase) else hi)
    p phase h

/-- `DataTaker._heat` (src/vaplac/base.py lines 374-450): per-sample raw
enthalpies and phases from the property service, phase-corrected per
`heatPhaseCorrection`, then
`flow * (hout - hin) * (-1 if power == 'Qcond' else 1)`. -/
def heat (O : PropOracle) (power : PowerKind) (flow pin Tin pout Tout : List ℚ) : List ℚ :=
  zipWith3
    (fun fl hi ho => fl * (ho - hi) * (if power = PowerKind.Qcond then (-1 : ℚ) else 1))
    flow
    (heatPhaseCorrection O.hPQ (expPhaseIn power) pin (List.zipWith O.phasePT pin Tin)
      (List.zipWith O.hPT pin Tin))
    (heatPhaseCorrection O.hPQ (expPhaseOut power) pout (List.zipWith O.phasePT pout Tout)
      (List.zipWith O.hPT pout Tout))

/-! ### Sensor cleaning (`DataTaker._build_quantities`, `_Quantity.clean`) -/

/-- A raw sensor cell: a number, or the out-of-range marker `'UnderRange'`. -/
inductive RawCell where
  | num (x : ℚ)
  | underRange
deriving DecidableEq

/-- First cleaning step, `f[f == 'UnderRange'] = 0`
(src/vaplac/base.py line 211, src/xpint.py line 75). -/
def zeroUnderRange (xs : List RawCell) : List RawCell :=
  xs.map fun r => if r = RawCell.underRange then RawCell.num 0 else r

/-- `astype(float)`.  After `zeroUnderRange` no marker remains, so the
`underRange` arm is unreachable in `cleanFreq`. -/
def rawToFloat : RawCell → ℚ
  | .num x => x
  | .underRange => 0

/-- Sentinel cleaning (src/vaplac/base.py lines 210-212, src/xpint.py lines
70-77): zero the `'UnderRange'` markers, then divide everything by 2. -/
def cleanFreq (raw : List RawCell) : List ℚ :=
  (zeroUnderRange raw).map (fun r => rawToFloat r / 2)

/-- `flowrt_r[f == 0] = 0` (src/vaplac/base.py line 224): force the
refrigerant flow rate to zero wherever the cleaned frequency is zero. -/
def zeroFlowAtStoppedCompressor (f flow : List ℚ) : List ℚ :=
  List.zipWith (fun fi wi => if fi = 0 then 0 else wi) f flow

/-! ### The humidity validation check (`sauroneye.humidity_check`) -/

/-- `(wr < ws).sum()` (src/vaplac/sauroneye.py line 17): the number of
samples whose return humidity ratio is strictly below the supply one. -/
def countBelow (wr ws : List ℚ) : Nat :=
  (List.zipWith (fun a b => if a < b then (1 : Nat) else 0) wr ws).sum

/-- `overhum = (wr < ws).sum() / len(wr)` (src/vaplac/sauroneye.py line 17). -/
def overhum (wr ws : List ℚ) : ℚ := (countBelow wr ws : ℚ) / (wr.length : ℚ)

def dotStr : String := "."

def pctStr : String := "%"

/-- Python `'{:.1%}'.format(x)` for the nonnegative fractions used here:
`x` as a percentage with one decimal digit (round to the nearest tenth of a
percent; exact at every input this development evaluates it on). -/
def fmtPercent1 (q : ℚ) : String :=
  toString (⌊q * 1000 + 1 / 2⌋ / 10) ++ dotStr ++ toString (⌊q * 1000 + 1 / 2⌋ % 10) ++ pctStr

def msgHead : String := "The supply humidity ratio exceeds the return humidity ratio "

def msgTail : String := " of the time."

/-- `humidity_check` (src/vaplac/sauroneye.py lines 13-21 and
src/vaplac/vaplac/sauroneye.py lines 13-21, the later revisions with
threshold 0.02 and direction `wr < ws`): warn, quoting the fraction
formatted with `'{:.1%}'`, exactly when `overhum > 0.02`. -/
def humidityCheck (wr ws : List ℚ) : Option String :=
  if overhum wr ws > 0.02 then some (msgHead ++ fmtPercent1 (overhum wr ws) ++ msgTail)
  else none

/-! ### Claims C1-C5, C7, C8, C10 -/

/-- Saturation-enthalpy oracle used in concrete evaluations: every
saturation lookup returns 999. -/
def satOracle : ℚ → ℚ → ℚ := fun _ _ => 999

/-- Claim C1 (code bug).  The claim: every sample whose actual phase
differs from the expected phase gets the saturation enthalpy, and every
matching sample keeps its raw enthalpy.  On the mixed batch with phases
`[gas, twophase]` and expected phase `gas`, the guard
`if not exp_phase in phase` in `DataTaker._heat` skips the whole
correction because sample 0 already matches, so the diverging sample 1
keeps its raw enthalpy 200; the per-sample correction of `thermo_cal`
(and of the spec, and of the comment above the guard) replaces it with
the saturation enthalpy 999. -/
theorem C1_guard_skips_required_correction :
    heatPhaseCorrection satOracle phaseGas [1, 2] [phaseGas, phaseTwophase] [100, 200]
        = [100, 200] ∧
    thermoCalPhaseCorrection satOracle phaseGas [1, 2] [phaseGas, phaseTwophase] [100, 200]
        = [100, 999] := by
  exact ⟨by decide, by decide⟩

/-- Property oracle for the C2 scenario: enthalpy 450 and phase `gas` at
pressure 1, enthalpy 250 and phase `liq` at any other pressure. -/
def scenarioOracle : PropOracle :=
  ⟨fun p _ => if p = 1 then 450 else 250,
   fun p _ => if p = 1 then phaseGas else phaseLiq,
   satOracle⟩

/-- Claim C2 (confirmed).  `Qcond`, `Qev` and `Pcomp` are the flow rate
times the corrected-enthalpy difference `hout - hin` times a sign that is
-1 for `Qcond` and +1 for `Qev` and `Pcomp`; with inlet enthalpy 450,
outlet enthalpy 250 and flow 1/10 the condenser heat rate is the positive
value 20. -/
theorem C2_heat_sign_convention :
    (∀ (O : PropOracle) (flow pin Tin pout Tout : List ℚ),
      heat O .Qcond flow pin Tin pout Tout =
        zipWith3 (fun fl hi ho => fl * (ho - hi) * (-1)) flow
          (heatPhaseCorrection O.hPQ (expPhaseIn .Qcond) pin
            (List.zipWith O.phasePT pin Tin) (List.zipWith O.hPT pin Tin))
          (heatPhaseCorrection O.hPQ (expPhaseOut .Qcond) pout
            (List.zipWith O.phasePT pout Tout) (List.zipWith O.hPT pout Tout))) ∧
    (∀ (O : PropOracle) (flow pin Tin pout Tout : List ℚ),
      heat O .Qev flow pin Tin pout Tout =
        zipWith3 (fun fl hi ho => fl * (ho - hi) * 1) flow
          (heatPhaseCorrection O.hPQ (expPhaseIn .Qev) pin
            (List.zipWith O.phasePT pin Tin) (List.zipWith O.hPT pin Tin))
          (heatPhaseCorrection O.hPQ (expPhaseOut .Qev) pout
            (List.zipWith O.phasePT pout Tout) (List.zipWith O.hPT pout Tout))) ∧
    (∀ (O : PropOracle) (flow pin Tin pout Tout : List ℚ),
      heat O .Pcomp flow pin Tin pout Tout =
        zipWith3 (fun fl hi ho => fl * (ho - hi) * 1) flow
          (heatPhaseCorrection O.hPQ (expPhaseIn .Pcomp) pin
            (List.zipWith O.phasePT pin Tin) (List.zipWith O.hPT pin Tin))
          (heatPhaseCorrection O.hPQ (expPhaseOut .Pcomp) pout
            (List.zipWith O.phasePT pout Tout) (List.zipWith O.hPT pout Tout))) ∧
    heat scenarioOracle .Qcond [1 / 10] [1] [300] [2] [280] = [20] ∧ (0 : ℚ) < 20 := by
  refine ⟨fun O flow pin Tin pout Tout => rfl, fun O flow pin Tin pout Tout => rfl,
    fun O flow pin Tin pout Tout => rfl, ?_, by norm_num⟩
  norm_num [heat, heatPhaseCorrection, scenarioOracle, expPhaseIn, expPhaseOut, zipWith3,
    qualityOf, phaseGas, phaseLiq, satOracle]

theorem zipWith3_nil_mid (f : α → β → γ → δ) (as : List α) (cs : List γ) :
    zipWith3 f as [] cs = [] := by
  cases as <;> rfl

/-- Claim C3 (confirmed).  When every sample's actual phase equals the
expected phase, the phase correction of `DataTaker._heat` returns exactly
the uncorrected enthalpy array. -/
theorem C3_phase_correction_identity (satH : ℚ → ℚ → ℚ) (expPhase : String)
    (p : List ℚ) (phase : List String) (h : List ℚ)
    (hlen : phase.length = h.length)
    (hall : ∀ ph ∈ phase, ph = expPhase) :
    heatPhaseCorrection satH expPhase p phase h = h := by
  cases phase with
  | nil =>
      have hh : h = [] := by cases h <;> simp_all
      subst hh
      simp [heatPhaseCorrection, zipWith3_nil_mid]
  | cons a t =>
      have ha : a = expPhase := hall a (List.mem_cons_self a t)
      have hmem : expPhase ∈ a :: t := by
        rw [← ha]; exact List.mem_cons_self a t
      simp [heatPhaseCorrection, hmem]

/-- Witness for C3: a one-sample batch already in the expected phase is
returned untouched. -/
theorem C3_phase_correction_identity_witness :
    heatPhaseCorrection satOracle phaseGas [1] [phaseGas] [42] = [42] :=
  C3_phase_correction_identity satOracle phaseGas [1] [phaseGas] [42] (by decide) (by decide)

/-- Claim C4 (confirmed).  A round trip `to(u1).to(u2).to(u1)` reproduces
the magnitude of `to(u1)`, and every conversion keeps `prop` and `label`. -/
theorem C4_to_roundtrip (q : Quantity) (u1 u2 : XUnit)
    (hd1 : u1.dim = q.units.dim) (hd2 : u2.dim = q.units.dim)
    (hs1 : u1.scale ≠ 0) (hs2 : u2.scale ≠ 0) :
    ∃ q1 q2 q3, q.to (some u1) = some q1 ∧ q1.to (some u2) = some q2 ∧
      q2.to (some u1) = some q3 ∧ q3.magnitude = q1.magnitude ∧
      q1.prop = q.prop ∧ q1.label = q.label ∧ q2.prop = q.prop ∧
      q2.label = q.label ∧ q3.prop = q.prop ∧ q3.label = q.label := by
  refine ⟨⟨q.magnitude.map (convertMag q.units u1), u1, q.prop, q.label⟩,
    ⟨(q.magnitude.map (convertMag q.units u1)).map (convertMag u1 u2), u2, q.prop, q.label⟩,
    ⟨((q.magnitude.map (convertMag q.units u1)).map (convertMag u1 u2)).map (convertMag u2 u1),
      u1, q.prop, q.label⟩, ?_, ?_, ?_, ?_, rfl, rfl, rfl, rfl, rfl, rfl⟩
  · simp [Quantity.to, hd1]
  · simp [Quantity.to, hd2.trans hd1.symm]
  · simp [Quantity.to, hd1.trans hd2.symm]
  · show _ = q.magnitude.map (convertMag q.units u1)
    rw [List.map_map, List.map_map]
    refine List.map_congr_left fun m _ => ?_
    show convertMag u2 u1 (convertMag u1 u2 (convertMag q.units u1 m)) = convertMag q.units u1 m
    unfold convertMag
    field_simp

def dimTemperature : String := "temperature"

def propTemperature : String := "temperature"

def labelT : String := "$T$"

/-- Concrete tagged quantity used by witnesses. -/
def qEx : Quantity := ⟨[3, 5], ⟨dimTemperature, 1, 0⟩, some propTemperature, some labelT⟩

def u1Ex : XUnit := ⟨dimTemperature, 2, 1⟩

def u2Ex : XUnit := ⟨dimTemperature, 4, 7⟩

/-- Witness for C4 at a concrete quantity and a concrete pair of
compatible units. -/
theorem C4_to_roundtrip_witness :
    ∃ q1 q2 q3, qEx.to (some u1Ex) = some q1 ∧ q1.to (some u2Ex) = some q2 ∧
      q2.to (some u1Ex) = some q3 ∧ q3.magnitude = q1.magnitude ∧
      q1.prop = qEx.prop ∧ q1.label = qEx.label ∧ q2.prop = qEx.prop ∧
      q2.label = qEx.label ∧ q3.prop = qEx.prop ∧ q3.label = qEx.label :=
  C4_to_roundtrip qEx u1Ex u2Ex (by decide) (by decide) (by decide) (by decide)

/-- Claim C5 (confirmed).  Indexing and slicing preserve `prop` and
`label`. -/
theorem C5_getitem_preserves_tags (q : Quantity) (k : IndexKey) (r : Quantity)
    (h : q.getitem k = some r) : r.prop = q.prop ∧ r.label = q.label := by
  cases k with
  | idx i =>
      simp only [Quantity.getitem, Option.map_eq_some'] at h
      obtain ⟨x, hx, hr⟩ := h
      rw [← hr]
      exact ⟨rfl, rfl⟩
  | slice a b =>
      simp only [Quantity.getitem, Option.some.injEq] at h
      rw [← h]
      exact ⟨rfl, rfl⟩

def rEx : Quantity := ⟨[5], ⟨dimTemperature, 1, 0⟩, some propTemperature, some labelT⟩

/-- Witness for C5 at a concrete quantity and index. -/
theorem C5_getitem_preserves_tags_witness :
    rEx.prop = qEx.prop ∧ rEx.label = qEx.label :=
  C5_getitem_preserves_tags qEx (.idx 1) rEx (by decide)

theorem zipWith_zeroing_getD (f flow : List ℚ) (i : Nat) (hf : f.getD i 0 = 0) :
    (List.zipWith (fun fi wi => if fi = 0 then 0 else wi) f flow).getD i 0 = 0 := by
  induction f generalizing flow i with
  | nil => simp
  | cons a t ih =>
      cases flow with
      | nil => simp
      | cons b s =>
          cases i with
          | zero => simp_all
          | succ j =>
              simp only [List.zipWith_cons_cons, List.getD_cons_succ]
              exact ih s j (by simpa using hf)

/-- Claim C7 (confirmed).  At every sample where the cleaned compressor
frequency is zero, the cleaned refrigerant flow rate stored by
`DataTaker._build_quantities` is zero (out-of-range positions read as the
default 0). -/
theorem C7_flow_zeroing (raw : List RawCell) (flow : List ℚ) (i : Nat)
    (hf : (cleanFreq raw).getD i 0 = 0) :
    (zeroFlowAtStoppedCompressor (cleanFreq raw) flow).getD i 0 = 0 :=
  zipWith_zeroing_getD (cleanFreq raw) flow i hf

/-- Witness for C7: an `UnderRange` frequency sample cleans to 0 and forces
the flow sample to 0. -/
theorem C7_flow_zeroing_witness :
    (zeroFlowAtStoppedCompressor (cleanFreq [RawCell.underRange, RawCell.num 4])
      [7, 9]).getD 0 0 = 0 :=
  C7_flow_zeroing [RawCell.underRange, RawCell.num 4] [7, 9] 0
    (by norm_num [cleanFreq, zeroUnderRange, rawToFloat])

theorem cleanFreq_eq_map (raw : List RawCell) :
    cleanFreq raw = raw.map (fun r => match r with
      | .underRange => 0
      | .num x => x / 2) := by
  unfold cleanFreq zeroUnderRange
  rw [List.map_map]
  refine List.map_congr_left fun r _ => ?_
  cases r <;> simp [rawToFloat]

/-- Claim C8 (confirmed).  Sentinel cleaning maps `'UnderRange'` to 0 and
every numeric entry `x` to `x / 2`; in particular `[10, 'UnderRange', 6]`
cleans to `[5, 0, 3]`. -/
theorem C8_sentinel_cleaning :
    cleanFreq [RawCell.num 10, RawCell.underRange, RawCell.num 6] = [5, 0, 3] ∧
    ∀ raw : List RawCell,
      cleanFreq raw = raw.map (fun r => match r with
        | .underRange => 0
        | .num x => x / 2) := by
  refine ⟨?_, cleanFreq_eq_map⟩
  rw [cleanFreq_eq_map]
  norm_num

def exWr : List ℚ := List.replicate 19 1 ++ [0]

def exWs : List ℚ := List.replicate 19 0 ++ [1]

def pct50 : String := "5.0%"

def exMsg : String := msgHead ++ pct50 ++ msgTail

theorem overhum_ex : overhum exWr exWs = 1 / 20 := by
  have h1 : countBelow exWr exWs = 1 := by decide
  have h2 : exWr.length = 20 := by decide
  rw [overhum, h1, h2]
  norm_num

theorem fmtPercent1_ex : fmtPercent1 (1 / 20) = pct50 := by
  have h : ⌊(1 / 20 : ℚ) * 1000 + 1 / 2⌋ = 50 := by norm_num
  rw [fmtPercent1, h]
  decide

theorem humidityCheck_ex : humidityCheck exWr exWs = some exMsg := by
  rw [humidityCheck, overhum_ex, if_pos (by norm_num), fmtPercent1_ex]
  rfl

/-- Claim C10 (confirmed).  The humidity check warns exactly when the
fraction of samples with `wr < ws` exceeds 0.02, the message quotes that
fraction formatted as a percentage with one decimal, and a 5% fraction is
quoted as `5.0%`. -/
theorem C10_humidity_check (wr ws : List ℚ) :
    ((humidityCheck wr ws).isSome ↔ overhum wr ws > 0.02) ∧
    (∀ m, humidityCheck wr ws = some m →
      m = msgHead ++ fmtPercent1 (overhum wr ws) ++ msgTail) ∧
    humidityCheck exWr exWs = some exMsg := by
  refine ⟨?_, ?_, humidityCheck_ex⟩
  · unfold humidityCheck
    split <;> simp_all
  · intro m hm
    unfold humidityCheck at hm
    split at hm
    · cases hm; rfl
    · cases hm

/-- Witness for C10: the concrete 5% scenario message is the formatted
message the theorem describes. -/
theorem C10_humidity_check_witness :
    exMsg = msgHead ++ fmtPercent1 (overhum exWr exWs) ++ msgTail :=
  (C10_humidity_check exWr exWs).2.1 exMsg humidityCheck_ex

/-! ### The moving-average smoother (`movmean`, `_Quantity.movmean`)

The algorithm (src/vaplac/movmean.py lines 31-51, identical in
src/xpint.py lines 209-225): make the window size `n` odd, let
`l = (n-1) // 2`, form the interior moving sum from shifted copies of the
cumulative sum, fill the `l` entries at each edge from the cumulative sum
of the `'reflect'`-padded array, and divide by `n`.

numpy failure modes, modelled by `none`:
the two arrays subtracted to form the interior moving sum have lengths
`max(N-l,0)+l` and `(l+1)+max(N-l-1,0)`; when these differ (which for
`N ≥ 2` is exactly the case `l ≥ N`) the elementwise subtraction raises a
broadcasting `ValueError`.  When `l = 0`, the edge assignment
`movsum[-0:] = movsum_refl[-1:-1]` tries to write an empty array into the
full-length slice `movsum[0:]` and raises a broadcasting `ValueError`. -/

/-- `n += 1 if n % 2 == 0 else 0` (movmean.py line 32). -/
def oddWindow (w : Nat) : Nat := if w % 2 = 0 then w + 1 else w

/-- `l = (n-1) // 2`, the edge half-width (movmean.py line 33). -/
def halfWin (w : Nat) : Nat := (oddWindow w - 1) / 2

/-- `np.cumsum` over a rational array: entry `i` is the sum of the first
`i+1` entries. -/
def npCumsum (a : List ℚ) : List ℚ :=
  (List.range a.length).map (fun i => (a.take (i + 1)).sum)

/-- Index into the `'reflect'` virtual extension of an array of length
`N ≥ 2`: numpy mirrors the array about its end points without repeating
them (repeatedly, for pad widths beyond `N-1`), which is the periodic
triangle wave of period `2N-2` over the index line. -/
def reflectIndex (N : Nat) (k : Int) : Nat :=
  if (k % (2 * (N : Int) - 2)).toNat ≤ N - 1 then (k % (2 * (N : Int) - 2)).toNat
  else 2 * N - 2 - (k % (2 * (N : Int) - 2)).toNat

/-- `np.pad(a, (p, p), 'reflect')` (movmean.py line 42). -/
def padReflect (a : List ℚ) (p : Nat) : List ℚ :=
  (List.range (a.length + 2 * p)).map
    (fun (j : Nat) => a.getD (reflectIndex a.length (Int.ofNat j - Int.ofNat p)) 0)

/-- `np.append(cumsum[l:], np.zeros(l))` (movmean.py line 39). -/
def movsumLhs (a : List ℚ) (l : Nat) : List ℚ :=
  (npCumsum a).drop l ++ List.replicate l 0

/-- `np.append(np.zeros(l+1), cumsum[:-l-1])` (movmean.py line 40). -/
def movsumRhs (a : List ℚ) (l : Nat) : List ℚ :=
  List.replicate (l + 1) 0 ++ (npCumsum a).take ((npCumsum a).length - (l + 1))

/-- The interior moving sum (movmean.py lines 39-40). -/
def movsumMain (a : List ℚ) (l : Nat) : List ℚ :=
  List.zipWith (fun x y => x - y) (movsumLhs a l) (movsumRhs a l)

/-- `movsum_refl = cumsum_refl[n:] - cumsum_refl[:-n]` (movmean.py
lines 42-43). -/
def movsumRefl (a : List ℚ) (n l : Nat) : List ℚ :=
  List.zipWith (fun x y => x - y) ((npCumsum (padReflect a (l + 1))).drop n)
    ((npCumsum (padReflect a (l + 1))).take ((npCumsum (padReflect a (l + 1))).length - n))

/-- In-place overwrite of the first `ys.length` entries
(`xs[:k] = ys`, movmean.py line 46). -/
def overwriteFront (xs ys : List ℚ) : List ℚ := ys ++ xs.drop ys.length

/-- In-place overwrite of the last `ys.length` entries
(`xs[-k:] = ys` for `k ≥ 1`, movmean.py line 47). -/
def overwriteBack (xs ys : List ℚ) : List ℚ := xs.take (xs.length - ys.length) ++ ys

/-- The moving mean returned on the non-raising paths (movmean.py lines
34-51): interior moving sum, the `l` edge entries at each end overwritten
from the reflected moving sum (`movsum[:l] = movsum_refl[:l]` and
`movsum[-l:] = movsum_refl[-l-1:-1]`), everything divided by `n`. -/
def movmeanBody (a : List ℚ) (w : Nat) : List ℚ :=
  (overwriteBack
    (overwriteFront (movsumMain a (halfWin w))
      ((movsumRefl a (oddWindow w) (halfWin w)).take (halfWin w)))
    (((movsumRefl a (oddWindow w) (halfWin w)).drop
        ((movsumRefl a (oddWindow w) (halfWin w)).length - (halfWin w + 1))).take
      (halfWin w))).map (fun s => s / (oddWindow w : ℚ))

/-- The standalone `movmean` (src/vaplac/movmean.py lines 5-51), which
performs no length check on its input.  `none` models the two numpy
broadcasting `ValueError`s described above. -/
def movmeanFree (a : List ℚ) (w : Nat) : Option (List ℚ) :=
  if (movsumLhs a (halfWin w)).length ≠ (movsumRhs a (halfWin w)).length then none
  else if halfWin w = 0 then none
  else some (movmeanBody a w)

/-- A `_Quantity.movmean` receiver magnitude: a scalar or an array. -/
inductive Magnitude where
  | scalar (x : ℚ)
  | array (xs : List ℚ)
deriving DecidableEq

/-- `_Quantity.movmean` (src/xpint.py lines 178-225): reject a scalar
magnitude (`len` raises `TypeError`, caught and re-raised as `ValueError`)
and any magnitude shorter than 3 samples (`ValueError`), then run the same
algorithm as the standalone `movmean`. -/
def movmeanMethod (m : Magnitude) (w : Nat) : Option (List ℚ) :=
  match m with
  | .scalar _ => none
  | .array a => if a.length < 3 then none else movmeanFree a w

/-! ### Lemmas about the moving-average smoother -/

theorem oddWindow_eq (w : Nat) : oddWindow w = 2 * halfWin w + 1 := by
  unfold halfWin oddWindow
  by_cases hw : w % 2 = 0 <;> simp [hw] <;> omega

theorem halfWin_eq (w : Nat) : halfWin w = w / 2 := by
  unfold halfWin oddWindow
  by_cases hw : w % 2 = 0 <;> simp [hw] <;> omega

theorem length_npCumsum (a : List ℚ) : (npCumsum a).length = a.length := by
  simp [npCumsum]

theorem getElem_npCumsum (a : List ℚ) (i : Nat) (h : i < (npCumsum a).length) :
    (npCumsum a)[i] = (a.take (i + 1)).sum := by
  simp [npCumsum]

theorem reflectIndex_lt (N : Nat) (hN : 2 ≤ N) (k : Int) : reflectIndex N k < N := by
  unfold reflectIndex
  have hpos : (0 : Int) < 2 * (N : Int) - 2 := by omega
  have h1 : 0 ≤ k % (2 * (N : Int) - 2) := Int.emod_nonneg k (by omega)
  have h2 : k % (2 * (N : Int) - 2) < 2 * (N : Int) - 2 := Int.emod_lt_of_pos k hpos
  have h3 : (k % (2 * (N : Int) - 2)).toNat < 2 * N - 2 := by omega
  split <;> omega

theorem length_padReflect (a : List ℚ) (p : Nat) :
    (padReflect a p).length = a.length + 2 * p := by
  simp [padReflect]

theorem padReflect_replicate (N p : Nat) (hN : 2 ≤ N) (c : ℚ) :
    padReflect (List.replicate N c) p = List.replicate (N + 2 * p) c := by
  unfold padReflect
  rw [List.length_replicate]
  refine List.ext_getElem (by simp) ?_
  intro i h1 h2
  simp only [List.getElem_map, List.getElem_range, List.getElem_replicate]
  rw [List.getD_eq_getElem _ _ (by simpa using reflectIndex_lt N hN _)]
  exact List.getElem_replicate c _

theorem getElem_npCumsum_replicate (M : Nat) (c : ℚ) (i : Nat)
    (h : i < (npCumsum (List.replicate M c)).length) :
    (npCumsum (List.replicate M c))[i] = ((i : ℚ) + 1) * c := by
  have hM : i < M := by simpa [length_npCumsum] using h
  rw [getElem_npCumsum]
  rw [List.take_replicate]
  have hmin : min (i + 1) M = i + 1 := by omega
  rw [hmin, List.sum_replicate, nsmul_eq_mul]
  push_cast
  ring

theorem length_movsumLhs (a : List ℚ) (l : Nat) (hl : l ≤ a.length) :
    (movsumLhs a l).length = a.length := by
  simp [movsumLhs, length_npCumsum]
  omega

theorem length_movsumRhs (a : List ℚ) (l : Nat) (hl : l + 1 ≤ a.length) :
    (movsumRhs a l).length = a.length := by
  simp [movsumRhs, length_npCumsum]
  omega

theorem length_movsumMain (a : List ℚ) (l : Nat) (hl : l + 1 ≤ a.length) :
    (movsumMain a l).length = a.length := by
  rw [movsumMain, List.length_zipWith, length_movsumLhs a l (by omega),
    length_movsumRhs a l hl, Nat.min_self]

theorem length_movsumRefl (a : List ℚ) (l : Nat) :
    (movsumRefl a (2 * l + 1) l).length = a.length + 1 := by
  simp [movsumRefl, length_npCumsum, length_padReflect]
  omega

theorem movsumRefl_replicate (N l : Nat) (hN : 2 ≤ N) (c : ℚ) :
    movsumRefl (List.replicate N c) (2 * l + 1) l
      = List.replicate (N + 1) ((2 * (l : ℚ) + 1) * c) := by
  unfold movsumRefl
  rw [padReflect_replicate N (l + 1) hN c]
  refine List.ext_getElem (by simp [length_npCumsum]; omega) ?_
  intro i h1 h2
  rw [List.getElem_replicate, List.getElem_zipWith, List.getElem_drop, List.getElem_take,
    getElem_npCumsum_replicate, getElem_npCumsum_replicate]
  push_cast
  ring

theorem movsumMain_replicate_middle (N l i : Nat) (c : ℚ) (hl : l + 1 ≤ N)
    (hi1 : l ≤ i) (hi2 : i + l + 1 ≤ N)
    (h : i < (movsumMain (List.replicate N c) l).length) :
    (movsumMain (List.replicate N c) l)[i] = (2 * (l : ℚ) + 1) * c := by
  have hcs : (npCumsum (List.replicate N c)).length = N := by
    simp [length_npCumsum]
  unfold movsumMain movsumLhs movsumRhs
  rw [List.getElem_zipWith]
  have hiL : i < ((npCumsum (List.replicate N c)).drop l).length := by
    simp [hcs]
    omega
  rw [List.getElem_append_left hiL, List.getElem_drop, getElem_npCumsum_replicate]
  by_cases hsmall : i < l + 1
  · have hzero : i < (List.replicate (l + 1) (0 : ℚ)).length := by
      simp
      omega
    rw [List.getElem_append_left hzero, List.getElem_replicate]
    have hieq : i = l := by omega
    subst hieq
    push_cast
    ring
  · have hge : (List.replicate (l + 1) (0 : ℚ)).length ≤ i := by
      simp
      omega
    rw [List.getElem_append_right hge]
    simp only [List.length_replicate]
    rw [List.getElem_take, getElem_npCumsum_replicate]
    have hc1 : ((i - (l + 1) : ℕ) : ℚ) = (i : ℚ) - (l : ℚ) - 1 := by
      have : l + 1 ≤ i := by omega
      push_cast [Nat.cast_sub this]
      ring
    rw [hc1]
    push_cast
    ring

theorem edged_replicate (N l : Nat) (hN : 2 ≤ N) (hl1 : 1 ≤ l) (hl2 : l + 1 ≤ N) (c : ℚ) :
    overwriteBack
      (overwriteFront (movsumMain (List.replicate N c) l)
        ((movsumRefl (List.replicate N c) (2 * l + 1) l).take l))
      (((movsumRefl (List.replicate N c) (2 * l + 1) l).drop
          ((movsumRefl (List.replicate N c) (2 * l + 1) l).length - (l + 1))).take l)
      = List.replicate N ((2 * (l : ℚ) + 1) * c) := by
  have hM : (movsumMain (List.replicate N c) l).length = N := by
    simpa using length_movsumMain (List.replicate N c) l (by simpa using hl2)
  rw [movsumRefl_replicate N l hN c, List.length_replicate, List.take_replicate,
    List.drop_replicate, List.take_replicate]
  have hm1 : min l (N + 1) = l := by omega
  have hm2 : min l (N + 1 - (N + 1 - (l + 1))) = l := by omega
  rw [hm1, hm2]
  unfold overwriteBack overwriteFront
  rw [List.length_replicate]
  set v : ℚ := (2 * (l : ℚ) + 1) * c with hv
  set X : List ℚ := List.replicate l v ++ (movsumMain (List.replicate N c) l).drop l with hXdef
  have hXlen : X.length = N := by
    simp [hXdef, hM]
    omega
  refine List.ext_getElem (by simp [hXlen]; omega) ?_
  intro i h1 h2
  rw [List.getElem_replicate]
  have hlenN : i < N := by simpa using h2
  by_cases hfront : i < N - l
  · have htk : i < (X.take (X.length - l)).length := by
      simp [hXlen]
      omega
    rw [List.getElem_append_left htk, List.getElem_take]
    simp only [hXdef]
    by_cases hrep : i < l
    · have hrep2 : i < (List.replicate l v).length := by
        simp
        omega
      rw [List.getElem_append_left hrep2, List.getElem_replicate]
    · have hge : (List.replicate l v).length ≤ i := by
        simp
        omega
      obtain ⟨j, rfl⟩ : ∃ j, i = l + j := ⟨i - l, by omega⟩
      rw [List.getElem_append_right hge]
      simp only [List.length_replicate, Nat.add_sub_cancel_left]
      rw [List.getElem_drop]
      exact movsumMain_replicate_middle N l (l + j) c hl2 (by omega) (by omega) _
  · have hge : (X.take (X.length - l)).length ≤ i := by
      simp [hXlen]
      omega
    rw [List.getElem_append_right hge, List.getElem_replicate]

theorem length_movmeanBody (a : List ℚ) (w : Nat) (hl2 : halfWin w + 1 ≤ a.length) :
    (movmeanBody a w).length = a.length := by
  unfold movmeanBody overwriteBack overwriteFront
  rw [oddWindow_eq]
  simp [length_movsumRefl, length_movsumMain a (halfWin w) hl2, List.length_take]
  omega

theorem movmeanBody_replicate (N : Nat) (c : ℚ) (w : Nat) (hN : 2 ≤ N)
    (hl1 : 1 ≤ halfWin w) (hl2 : halfWin w + 1 ≤ N) :
    movmeanBody (List.replicate N c) w = List.replicate N c := by
  unfold movmeanBody
  rw [oddWindow_eq]
  rw [edged_replicate N (halfWin w) hN hl1 hl2 c, List.map_replicate]
  congr 1
  have hcast : ((2 * halfWin w + 1 : ℕ) : ℚ) = 2 * (halfWin w : ℚ) + 1 := by
    push_cast
    ring
  rw [hcast]
  exact mul_div_cancel_left₀ c (by positivity)

/-- Claim C6 (theorem for the amended claim).  For an input of length at
least 3 and a window size between 2 and twice the length minus one
(equivalently, edge half-width `l` between 1 and length-1), both movmean
implementations return a sequence of the input's length, and on a constant
input they return the input exactly.  Outside that window range the code
raises (see the counterexample). -/
theorem C6_movmean_length_and_constant (a : List ℚ) (w : Nat)
    (h3 : 3 ≤ a.length) (hw2 : 2 ≤ w) (hwN : w ≤ 2 * a.length - 1) :
    ∃ out, movmeanFree a w = some out ∧ movmeanMethod (Magnitude.array a) w = some out ∧
      out.length = a.length ∧ ∀ c, a = List.replicate a.length c → out = a := by
  have hhw := halfWin_eq w
  have hl1 : 1 ≤ halfWin w := by omega
  have hl2 : halfWin w + 1 ≤ a.length := by omega
  have hgate1 : ¬ (movsumLhs a (halfWin w)).length ≠ (movsumRhs a (halfWin w)).length := by
    rw [length_movsumLhs a _ (by omega), length_movsumRhs a _ hl2]
    exact fun hcon => hcon rfl
  have hfree : movmeanFree a w = some (movmeanBody a w) := by
    unfold movmeanFree
    rw [if_neg hgate1, if_neg (by omega)]
  refine ⟨movmeanBody a w, hfree, ?_, length_movmeanBody a w hl2, ?_⟩
  · show (if a.length < 3 then none else movmeanFree a w) = some (movmeanBody a w)
    rw [if_neg (by omega), hfree]
  · intro c hc
    rw [hc]
    exact movmeanBody_replicate a.length c w (by omega) hl1 hl2

/-- Witness for C6: a constant array of length 4 smoothed with window 3
comes back unchanged. -/
theorem C6_movmean_length_and_constant_witness :
    movmeanFree (List.replicate 4 (2 : ℚ)) 3 = some (List.replicate 4 (2 : ℚ)) := by
  obtain ⟨out, hfree, hmeth, hlen, hconst⟩ :=
    C6_movmean_length_and_constant (List.replicate 4 (2 : ℚ)) 3 (by decide) (by decide)
      (by decide)
  rw [hfree, hconst 2 (by decide)]

/-- Counterexample for C6 as stated: on the length-3 input `[1, 2, 3]`
(length at least 3) with window size 7, the two moving-sum arrays have
lengths 3 and 4, so numpy raises a broadcasting ValueError — both movmean
implementations fail instead of returning a sequence of the input's
length.  The claim's quantification over every window size is therefore
false. -/
theorem C6_counterexample_large_window :
    movmeanFree [1, 2, 3] 7 = none ∧ movmeanMethod (Magnitude.array [1, 2, 3]) 7 = none := by
  exact ⟨by decide, by decide⟩

/-- Claim C9 (theorem for the amended claim).  `_Quantity.movmean` fails
with ValueError on every scalar magnitude (the `len` call raises
`TypeError`, re-raised as `ValueError`) and on every array of fewer than 3
samples, whatever the window size. -/
theorem C9_method_rejects_short_inputs :
    (∀ x : ℚ, ∀ w : Nat, movmeanMethod (Magnitude.scalar x) w = none) ∧
    (∀ (a : List ℚ) (w : Nat), a.length < 3 → movmeanMethod (Magnitude.array a) w = none) := by
  refine ⟨fun x w => rfl, fun a w h => ?_⟩
  show (if a.length < 3 then none else movmeanFree a w) = none
  rw [if_pos h]

/-- Witness for C9: the method rejects a 2-element array. -/
theorem C9_method_rejects_short_inputs_witness :
    movmeanMethod (Magnitude.array [1, 2]) 5 = none :=
  C9_method_rejects_short_inputs.2 [1, 2] 5 (by decide)

/-- Counterexample for C9 as stated: the standalone `movmean` of
src/vaplac/movmean.py performs no length check, and on the 2-element input
`[1, 2]` with window size 3 it returns a result (the 2-element array
`[5/3, 4/3]`) instead of failing with ValueError. -/
theorem C9_counterexample_short_input_succeeds :
    (movmeanFree [1, 2] 3).isSome = true := by decide

end HpTests
